import Mathlib

set_option maxRecDepth 40000

/-!
Shallow embedding of the extraction-and-packaging core of `src/app.py`
(a Streamlit front-end code generator).  Python strings are modelled as
Lean `String` (a wrapper around `List Char`); the inputs involved are
ASCII, so Python's `str.strip()` is modelled by stripping the ASCII
whitespace characters it removes on such inputs.
-/

/-- ASCII whitespace characters removed by Python `str.strip()`. -/
def pyIsSpace (c : Char) : Bool :=
  c = ' ' || c = '\t' || c = '\n' || c = '\r' || c = '\x0b' || c = '\x0c'

/-- Remove leading and trailing characters satisfying `p` (Python `str.strip(chars)`). -/
def stripCharSet (p : Char → Bool) (l : List Char) : List Char :=
  ((l.dropWhile p).reverse.dropWhile p).reverse

/-- Python `section.strip()` on ASCII text. -/
def pyStrip (s : String) : String :=
  ⟨stripCharSet pyIsSpace s.toList⟩

/-- The backtick character (code 96). -/
def backtickChar : Char := Char.ofNat 96

/-- Python `file_content.strip("```")`: removes every leading and trailing
backtick character (the argument is a character set). -/
def stripBackticks (s : String) : String :=
  ⟨stripCharSet (fun c => c = backtickChar) s.toList⟩

/-- `file_content.strip("```").strip()` from `app.py` lines 210/266/287/308. -/
def cleanContent (s : String) : String :=
  pyStrip (stripBackticks s)

/-- Python `section[:30]`. -/
def pyTake (s : String) (n : Nat) : String :=
  ⟨s.toList.take n⟩

/-- The warning text `f"Unexpected format in section: {section[:30]}..."`. -/
def sectionWarning (s : String) : String :=
  "Unexpected format in section: " ++ pyTake s 30 ++ "..."

/-- Characters of the literal delimiter `"### FILE: "`. -/
def delimChars : List Char := "### FILE: ".toList

/-- Worker for splitting on the delimiter, scanning left to right.
`skip` counts delimiter characters still to be consumed after a match;
`acc` holds the current fragment reversed. -/
def splitGo (skip : Nat) (acc : List Char) : List Char → List (List Char)
  | [] => [acc.reverse]
  | c :: cs =>
    match skip with
    | n + 1 => splitGo n acc cs
    | 0 =>
      if delimChars.isPrefixOf (c :: cs) then
        acc.reverse :: splitGo 9 [] cs
      else
        splitGo 0 (c :: acc) cs

/-- Python `code.split("### FILE: ")`: the list of fragments between
non-overlapping occurrences of the delimiter, scanned left to right. -/
def splitResponse (code : String) : List String :=
  (splitGo 0 [] code.toList).map (fun l => ⟨l⟩)

/-- Split a character list at the first newline, if any. -/
def splitNlAux : List Char → Option (List Char × List Char)
  | [] => none
  | c :: cs =>
    if c = '\n' then some ([], cs)
    else
      match splitNlAux cs with
      | none => none
      | some p => some (c :: p.1, p.2)

/-- Python `section.split("\n", 1)` when it yields two parts; `none` models
the `ValueError` raised when the section has no newline. -/
def splitFirstNewline (s : String) : Option (String × String) :=
  match splitNlAux s.toList with
  | none => none
  | some p => some (⟨p.1⟩, ⟨p.2⟩)

/-- The per-fragment loop shared by the preview extraction (app.py 205-219)
and the three `create_zip_file` loops (261-271, 282-292, 302-313): skip
whitespace-only fragments, warn on fragments without a newline, otherwise
record `(file_name.strip(), file_content.strip("```").strip())` in order.
Returns the entries and the warnings. -/
def processSections : List String → List (String × String) × List String
  | [] => ([], [])
  | s :: rest =>
    if pyStrip s = "" then processSections rest
    else
      match splitFirstNewline s with
      | none =>
        ((processSections rest).1, sectionWarning s :: (processSections rest).2)
      | some p =>
        ((pyStrip p.1, cleanContent p.2) :: (processSections rest).1,
         (processSections rest).2)

/-- Extraction of `(path, content)` entries (plus warnings) from one
response string, as performed by the loops in `create_zip_file`. -/
def extractSections (code : String) : List (String × String) × List String :=
  processSections (splitResponse code)

/-- State of the live-preview extraction loop (app.py 194-219): the three
content slots, initially `""`, plus the warnings emitted so far. -/
structure PreviewState where
  html : String
  css : String
  js : String
  warnings : List String
deriving DecidableEq

/-- Initial preview state: `html_code = css_code = js_code = ""`. -/
def previewInit : PreviewState := ⟨"", "", "", []⟩

/-- One iteration of the preview extraction loop (app.py 205-219). -/
def previewStep (st : PreviewState) (s : String) : PreviewState :=
  if pyStrip s = "" then st
  else
    match splitFirstNewline s with
    | none => { st with warnings := st.warnings ++ [sectionWarning s] }
    | some p =>
      if pyStrip p.1 = "index.html" then { st with html := cleanContent p.2 }
      else if pyStrip p.1 = "styles.css" then { st with css := cleanContent p.2 }
      else if pyStrip p.1 = "script.js" then { st with js := cleanContent p.2 }
      else st

/-- The preview extraction loop run over a list of fragments. -/
def extractPreviewFrom (secs : List String) : PreviewState :=
  secs.foldl previewStep previewInit

/-- The preview extraction loop run on the generated code string. -/
def extractPreview (code : String) : PreviewState :=
  extractPreviewFrom (splitResponse code)

/-- The wrapper document of app.py 224-242, inlining the extracted CSS in a
style block and the extracted JS in a script block around the HTML body. -/
def completeHtml (css html js : String) : String :=
  "\n<!DOCTYPE html>\n<html lang=\"en\">\n<head>\n    <meta charset=\"UTF-8\">\n    <meta name=\"viewport\" content=\"width=device-width, initial-scale=1.0\">\n    <title>Live Preview</title>\n    <style>\n    "
    ++ css ++
    "\n    </style>\n</head>\n<body>\n    "
    ++ html ++
    "\n    <script>\n    "
    ++ js ++
    "\n    </script>\n</body>\n</html>\n                            "

/-- Live-preview assembly (app.py 221-249): the document is produced when
all three slots are non-empty (Python truthiness of `html_code and
css_code and js_code`); otherwise a warning is shown and no document. -/
def previewResult (code : String) : Option String :=
  if (extractPreview code).html ≠ "" ∧ (extractPreview code).css ≠ "" ∧
      (extractPreview code).js ≠ "" then
    some (completeHtml (extractPreview code).css (extractPreview code).html
      (extractPreview code).js)
  else
    none

/-- The three framework choices of the selectbox (app.py 48-51). -/
inductive Framework
  | react
  | htmlCssJs
  | angular
deriving DecidableEq

/-- The framework selector string, as interpolated into f-strings. -/
def frameworkName : Framework → String
  | .react => "React"
  | .htmlCssJs => "HTML/CSS/JavaScript"
  | .angular => "Angular"

/-- The `required_files` list of each branch of `create_zip_file`
(app.py 274, 295, 316). -/
def requiredFiles : Framework → List String
  | .react => ["public/index.html", "src/App.js", "src/index.js", "package.json"]
  | .htmlCssJs => ["index.html", "styles.css", "script.js"]
  | .angular => ["angular.json", "src/app/app.module.ts",
      "src/app/app.component.ts", "src/app/app.component.html"]

/-- Placeholder content written for a missing required file: the React and
Angular branches write `f"// {req_file} content missing"` (app.py 277, 319),
the HTML/CSS/JavaScript branch writes `f"/* {req_file} content missing */"`
(app.py 298). -/
def placeholderContent (fw : Framework) (req : String) : String :=
  match fw with
  | .htmlCssJs => "/* " ++ req ++ " content missing */"
  | _ => "// " ++ req ++ " content missing"

/-- The loop adding placeholders for required files absent from the archive
name list (app.py 275-277, 296-298, 317-319); the membership test is against
the names written so far (`zf.namelist()`). -/
def addPlaceholders (fw : Framework) (entries : List (String × String)) :
    List String → List (String × String)
  | [] => entries
  | req :: rest =>
    if req ∈ entries.map Prod.fst then
      addPlaceholders fw entries rest
    else
      addPlaceholders fw (entries ++ [(req, placeholderContent fw req)]) rest

/-- The `readme_content` f-string of app.py 322-343. -/
def readmeContent (fw : Framework) : String :=
  "\n# Generated " ++ frameworkName fw ++
  " Frontend\n\n## Setup Instructions\n\n### React:\n1. Navigate to the project directory.\n2. Run `npm install` to install dependencies.\n3. Run `npm start` to start the development server.\n\n### HTML/CSS/JavaScript:\n1. Open `index.html` in your preferred web browser.\n\n### Angular:\n1. Navigate to the project directory.\n2. Run `npm install` to install dependencies.\n3. Run `ng serve` to start the development server.\n\n## Deployment\n\nThe project is ready to be deployed on platforms like Netlify, Vercel, or GitHub Pages.\n            "

/-- `create_zip_file(code, framework)` (app.py 254-350), modelled as the
ordered list of `(name, content)` members written to the archive: the
extracted sections, then placeholders for missing required files, then
`README.md`. -/
def create_zip_file (code : String) (fw : Framework) : List (String × String) :=
  addPlaceholders fw (extractSections code).1 (requiredFiles fw) ++
    [("README.md", readmeContent fw)]

/-- The per-session mutable slots (app.py 29-33, 174-176). -/
structure SessionState where
  generated_code : String
  fine_tuned_code : String
deriving DecidableEq

/-- Both slots start empty (app.py 29-33). -/
def initialSession : SessionState := ⟨"", ""⟩

/-- The error text shown when the completion text strips to empty. -/
def emptyResponseError : String :=
  "The API returned an empty response. Please try again."

/-- The generate handler's treatment of the completion text (app.py
169-176): strip it; if empty, emit one error and leave the session state
unchanged; otherwise store it in both slots.  Returns the new state and
the list of user-visible error messages. -/
def generateOutcome (st : SessionState) (resp : String) :
    SessionState × List String :=
  if pyStrip resp = "" then (st, [emptyResponseError])
  else ({ generated_code := pyStrip resp, fine_tuned_code := pyStrip resp }, [])

/-- User actions that can touch the session slots: a generate request whose
completion call returned `resp`, or a download request (which only reads). -/
inductive Event
  | generate (resp : String)
  | download
deriving DecidableEq

/-- Effect of one user action on the session slots. -/
def applyEvent (st : SessionState) : Event → SessionState
  | .generate resp => (generateOutcome st resp).1
  | .download => st

/-- The download handler (app.py 352-363): it tests `fine_tuned_code` for
non-emptiness but builds the archive from `generated_code`. -/
def downloadAction (st : SessionState) (fw : Framework) :
    Option (List (String × String)) :=
  if st.fine_tuned_code = "" then none
  else some (create_zip_file st.generated_code fw)

/-- Last-match lookup on an entry list: the value of the latest entry whose
name equals `k`, modelling which write wins for a repeated path. -/
def lookupLast : List (String × String) → String → Option String
  | [], _ => none
  | e :: es, k =>
    match lookupLast es k with
    | some v => some v
    | none => if e.1 = k then some e.2 else none

/-- The content the extraction result finally associates to path `k`
(empty when the path was never extracted). -/
def lastContent (code k : String) : String :=
  (lookupLast (extractSections code).1 k).getD ""

/-- The Scenario A response of the specification. -/
def scenarioA : String :=
  "### FILE: index.html\n```html\n<h1>Hi</h1>\n```\n### FILE: styles.css\n```css\nh1\x7bcolor:red;\x7d\n```\n### FILE: script.js\n```javascript\nconsole.log(1);\n```"

theorem string_eta (s : String) : (⟨s.toList⟩ : String) = s := by
  cases s; rfl

theorem toList_append (s t : String) : (s ++ t).toList = s.toList ++ t.toList := by
  cases s; cases t; rfl

theorem splitNlAux_append (l1 l2 : List Char) (h : '\n' ∉ l1) :
    splitNlAux (l1 ++ '\n' :: l2) = some (l1, l2) := by
  induction l1 with
  | nil => simp [splitNlAux]
  | cons c cs ih =>
    have hc : ¬(c = '\n') := fun e => h (e ▸ List.mem_cons_self c cs)
    have hcs : '\n' ∉ cs := fun m => h (List.mem_cons_of_mem _ m)
    simp [splitNlAux, hc, ih hcs]

theorem splitNlAux_none (l : List Char) (h : '\n' ∉ l) : splitNlAux l = none := by
  induction l with
  | nil => rfl
  | cons c cs ih =>
    have hc : ¬(c = '\n') := fun e => h (e ▸ List.mem_cons_self c cs)
    have hcs : '\n' ∉ cs := fun m => h (List.mem_cons_of_mem _ m)
    simp [splitNlAux, hc, ih hcs]

/-- A fragment of the form `header ++ "\n" ++ body`, with no newline inside
the header, splits at its first newline into `(header, body)`. -/
theorem splitFirstNewline_header (h b : String) (hh : '\n' ∉ h.toList) :
    splitFirstNewline (h ++ "\n" ++ b) = some (h, b) := by
  unfold splitFirstNewline
  have h1 : (h ++ "\n" ++ b).toList = h.toList ++ '\n' :: b.toList := by
    rw [toList_append, toList_append]
    simp
  rw [h1, splitNlAux_append _ _ hh]
  show some ((⟨h.toList⟩ : String), (⟨b.toList⟩ : String)) = some (h, b)
  rw [string_eta, string_eta]

/-- A fragment containing no newline fails the two-way split. -/
theorem splitFirstNewline_eq_none (s : String) (h : '\n' ∉ s.toList) :
    splitFirstNewline s = none := by
  unfold splitFirstNewline
  rw [splitNlAux_none s.toList h]

theorem exists_mem_dropWhile (p : Char → Bool) (l : List Char) (c : Char)
    (hc : c ∈ l) (hp : p c = false) :
    ∃ x ∈ l.dropWhile p, p x = false := by
  induction l with
  | nil => cases hc
  | cons a as ih =>
    by_cases ha : p a = true
    · rw [List.dropWhile_cons_of_pos ha]
      rcases List.mem_cons.mp hc with rfl | hmem
      · rw [hp] at ha; cases ha
      · exact ih hmem
    · rw [List.dropWhile_cons_of_neg ha]
      exact ⟨a, List.mem_cons_self a as, Bool.eq_false_iff.mpr ha⟩

/-- A string containing a non-whitespace character does not strip to empty. -/
theorem pyStrip_ne_empty (s : String) (c : Char) (hc : c ∈ s.toList)
    (hcs : pyIsSpace c = false) : pyStrip s ≠ "" := by
  intro e
  have hl : stripCharSet pyIsSpace s.toList = [] := congrArg String.data e
  unfold stripCharSet at hl
  rw [List.reverse_eq_nil_iff, List.dropWhile_eq_nil_iff] at hl
  obtain ⟨x, hx, hpx⟩ := exists_mem_dropWhile pyIsSpace s.toList c hc hcs
  have := hl x (List.mem_reverse.mpr hx)
  rw [hpx] at this
  cases this

theorem processSections_append (a b : List String) :
    processSections (a ++ b) =
      ((processSections a).1 ++ (processSections b).1,
       (processSections a).2 ++ (processSections b).2) := by
  induction a with
  | nil => simp [processSections]
  | cons s rest ih =>
    by_cases hs : pyStrip s = ""
    · simp [processSections, hs, ih]
    · cases h : splitFirstNewline s with
      | none => simp [processSections, hs, h, ih]
      | some p => simp [processSections, hs, h, ih]

/-- On fragments that are all of the well-formed shape `header\nbody` with
non-whitespace content, the loop extracts one entry per fragment in order
and emits no warning. -/
theorem processSections_wellformed (ps : List (String × String))
    (hnl : ∀ p ∈ ps, '\n' ∉ p.1.toList)
    (hne : ∀ p ∈ ps, pyStrip (p.1 ++ "\n" ++ p.2) ≠ "") :
    processSections (ps.map (fun p => p.1 ++ "\n" ++ p.2)) =
      (ps.map (fun p => (pyStrip p.1, cleanContent p.2)), []) := by
  induction ps with
  | nil => rfl
  | cons p rest ih =>
    have h1 := hne p (List.mem_cons_self p rest)
    have h2 := splitFirstNewline_header p.1 p.2 (hnl p (List.mem_cons_self p rest))
    have h3 := ih (fun q hq => hnl q (List.mem_cons_of_mem _ hq))
      (fun q hq => hne q (List.mem_cons_of_mem _ hq))
    simp [processSections, h1, h2, h3]

/-- Unfolding step for a well-formed fragment at the head of the loop. -/
theorem processSections_cons_entry (h b : String) (rest : List String)
    (hne : pyStrip (h ++ "\n" ++ b) ≠ "")
    (hsp : splitFirstNewline (h ++ "\n" ++ b) = some (h, b)) :
    processSections ((h ++ "\n" ++ b) :: rest) =
      ((pyStrip h, cleanContent b) :: (processSections rest).1,
       (processSections rest).2) := by
  simp only [processSections, hne, hsp, ite_false, if_neg]

theorem lookupLast_append (l1 l2 : List (String × String)) (k : String) :
    lookupLast (l1 ++ l2) k =
      match lookupLast l2 k with
      | some v => some v
      | none => lookupLast l1 k := by
  induction l1 with
  | nil =>
    simp only [List.nil_append]
    cases lookupLast l2 k <;> simp [lookupLast]
  | cons e es ih =>
    simp only [List.cons_append, lookupLast]
    rw [List.append_eq, ih]
    cases lookupLast l2 k with
    | some v => rfl
    | none => cases lookupLast es k <;> rfl

/-- The final `html_code` slot is the cleaned body of the last fragment
whose header strips to `index.html` (or the initial value if none). -/
theorem foldl_preview_html (secs : List String) (st : PreviewState) :
    (secs.foldl previewStep st).html =
      (lookupLast (processSections secs).1 "index.html").getD st.html := by
  induction secs generalizing st with
  | nil => simp [processSections, lookupLast]
  | cons s rest ih =>
    rw [List.foldl_cons, ih]
    by_cases hs : pyStrip s = ""
    · simp [previewStep, processSections, hs]
    · cases h : splitFirstNewline s with
      | none => simp [previewStep, processSections, hs, h]
      | some p =>
        simp only [previewStep, processSections, hs, if_neg, ite_false, h]
        cases hl : lookupLast (processSections rest).1 "index.html" with
        | some v => simp [lookupLast, hl]
        | none =>
          by_cases e1 : pyStrip p.1 = "index.html"
          · simp [lookupLast, hl, e1]
          · by_cases e2 : pyStrip p.1 = "styles.css"
            · simp [lookupLast, hl, e1, e2]
            · by_cases e3 : pyStrip p.1 = "script.js"
              · simp [lookupLast, hl, e1, e2, e3]
              · simp [lookupLast, hl, e1, e2, e3]

/-- The final `css_code` slot is the cleaned body of the last fragment
whose header strips to `styles.css` (or the initial value if none). -/
theorem foldl_preview_css (secs : List String) (st : PreviewState) :
    (secs.foldl previewStep st).css =
      (lookupLast (processSections secs).1 "styles.css").getD st.css := by
  induction secs generalizing st with
  | nil => simp [processSections, lookupLast]
  | cons s rest ih =>
    rw [List.foldl_cons, ih]
    by_cases hs : pyStrip s = ""
    · simp [previewStep, processSections, hs]
    · cases h : splitFirstNewline s with
      | none => simp [previewStep, processSections, hs, h]
      | some p =>
        simp only [previewStep, processSections, hs, if_neg, ite_false, h]
        cases hl : lookupLast (processSections rest).1 "styles.css" with
        | some v => simp [lookupLast, hl]
        | none =>
          by_cases e1 : pyStrip p.1 = "index.html"
          · have d1 : ("index.html" : String) ≠ "styles.css" := by decide
            simp [lookupLast, hl, e1, d1]
          · by_cases e2 : pyStrip p.1 = "styles.css"
            · simp [lookupLast, hl, e1, e2]
            · by_cases e3 : pyStrip p.1 = "script.js"
              · simp [lookupLast, hl, e1, e2, e3]
              · simp [lookupLast, hl, e1, e2, e3]

/-- The final `js_code` slot is the cleaned body of the last fragment
whose header strips to `script.js` (or the initial value if none). -/
theorem foldl_preview_js (secs : List String) (st : PreviewState) :
    (secs.foldl previewStep st).js =
      (lookupLast (processSections secs).1 "script.js").getD st.js := by
  induction secs generalizing st with
  | nil => simp [processSections, lookupLast]
  | cons s rest ih =>
    rw [List.foldl_cons, ih]
    by_cases hs : pyStrip s = ""
    · simp [previewStep, processSections, hs]
    · cases h : splitFirstNewline s with
      | none => simp [previewStep, processSections, hs, h]
      | some p =>
        simp only [previewStep, processSections, hs, if_neg, ite_false, h]
        cases hl : lookupLast (processSections rest).1 "script.js" with
        | some v => simp [lookupLast, hl]
        | none =>
          by_cases e1 : pyStrip p.1 = "index.html"
          · have d1 : ("index.html" : String) ≠ "script.js" := by decide
            simp [lookupLast, hl, e1, d1]
          · by_cases e2 : pyStrip p.1 = "styles.css"
            · have d2 : ("styles.css" : String) ≠ "script.js" := by decide
              simp [lookupLast, hl, e1, e2, d2]
            · by_cases e3 : pyStrip p.1 = "script.js"
              · simp [lookupLast, hl, e1, e2, e3]
              · simp [lookupLast, hl, e1, e2, e3]

theorem extractPreview_html (code : String) :
    (extractPreview code).html = lastContent code "index.html" := by
  unfold extractPreview extractPreviewFrom lastContent extractSections
  rw [foldl_preview_html]
  rfl

theorem extractPreview_css (code : String) :
    (extractPreview code).css = lastContent code "styles.css" := by
  unfold extractPreview extractPreviewFrom lastContent extractSections
  rw [foldl_preview_css]
  rfl

theorem extractPreview_js (code : String) :
    (extractPreview code).js = lastContent code "script.js" := by
  unfold extractPreview extractPreviewFrom lastContent extractSections
  rw [foldl_preview_js]
  rfl

/-- The placeholder loop appends exactly one placeholder per required file
that is not among the entry names, in checklist order (for checklists
without duplicates, as all three are). -/
theorem addPlaceholders_eq (fw : Framework) (reqs : List String)
    (entries : List (String × String)) (hnd : reqs.Nodup) :
    addPlaceholders fw entries reqs =
      entries ++
        (reqs.filter (fun r => decide (r ∉ entries.map Prod.fst))).map
          (fun r => (r, placeholderContent fw r)) := by
  induction reqs generalizing entries with
  | nil => simp [addPlaceholders]
  | cons r rest ih =>
    rcases List.nodup_cons.mp hnd with ⟨hr, hrest⟩
    by_cases hc : r ∈ entries.map Prod.fst
    · rw [addPlaceholders, if_pos hc, ih entries hrest]
      simp [List.filter_cons, hc]
    · rw [addPlaceholders, if_neg hc, ih _ hrest]
      have hfilter :
          rest.filter
            (fun x => decide
              (x ∉ (entries ++ [(r, placeholderContent fw r)]).map Prod.fst)) =
          rest.filter (fun x => decide (x ∉ entries.map Prod.fst)) := by
        apply List.filter_congr
        intro x hx
        have hxr : x ≠ r := fun e => hr (e ▸ hx)
        rw [decide_eq_decide]
        simp [List.map_append, hxr]
      rw [hfilter, List.filter_cons]
      simp [hc, List.append_assoc]

/-- `create_zip_file` produces exactly: the extracted entries, then one
placeholder per required file whose path is not among the extracted names,
then the single `README.md`. -/
theorem create_zip_file_eq (code : String) (fw : Framework) :
    create_zip_file code fw =
      (extractSections code).1 ++
        ((requiredFiles fw).filter
          (fun r => decide (r ∉ (extractSections code).1.map Prod.fst))).map
          (fun r => (r, placeholderContent fw r)) ++
        [("README.md", readmeContent fw)] := by
  have hnd : (requiredFiles fw).Nodup := by cases fw <;> decide
  rw [create_zip_file, addPlaceholders_eq fw _ _ hnd]

/-- The two session slots stay equal under every user action. -/
theorem session_slots_eq (evs : List Event) (st : SessionState)
    (h : st.fine_tuned_code = st.generated_code) :
    (evs.foldl applyEvent st).fine_tuned_code =
      (evs.foldl applyEvent st).generated_code := by
  induction evs generalizing st with
  | nil => simpa using h
  | cons e rest ih =>
    rw [List.foldl_cons]
    apply ih
    cases e with
    | download => exact h
    | generate resp =>
      by_cases hr : pyStrip resp = "" <;> simp [applyEvent, generateOutcome, hr, h]

/-- A fragment `header ++ "\n" ++ body` whose header holds a non-whitespace
character does not strip to empty. -/
theorem pyStrip_headerFrag_ne (h b : String) (c : Char) (hc : c ∈ h.toList)
    (hsp : pyIsSpace c = false) : pyStrip (h ++ "\n" ++ b) ≠ "" := by
  apply pyStrip_ne_empty _ c _ hsp
  rw [toList_append, toList_append]
  exact List.mem_append_left _ (List.mem_append_left _ hc)

/-- Claim C1 — counterexample.  On the Scenario A response the code does
not strip the language tag of the opening fence (Python's
`strip("```")` removes only backtick characters), and a closing fence
preceded by a newline survives the single strip pass; the extracted
contents are therefore not the bare code pieces the claim names. -/
theorem c1_counterexample :
    (extractSections scenarioA).1.map Prod.snd ≠
        ["<h1>Hi</h1>", "h1\x7bcolor:red;\x7d", "console.log(1);"] ∧
      (extractSections scenarioA).1.map Prod.snd =
        ["html\n<h1>Hi</h1>\n```", "css\nh1\x7bcolor:red;\x7d\n```",
         "javascript\nconsole.log(1);"] := by
  decide

/-- Claim C1 — amended.  For every well-formed response (its delimiter
split is a whitespace-only preamble followed by fragments of the shape
`header\nbody`, headers free of newlines, fragments not whitespace-only),
extraction yields exactly one entry per fragment in order, with path the
trimmed header; each content is the body with leading and trailing
backtick characters removed in one pass and then whitespace-trimmed — so
a language tag on the opening fence is kept, as is a closing fence that
is followed by more text (e.g. a newline). -/
theorem c1_amended (code pre : String) (ps : List (String × String))
    (hsplit : splitResponse code = pre :: ps.map (fun p => p.1 ++ "\n" ++ p.2))
    (hpre : pyStrip pre = "")
    (hnl : ∀ p ∈ ps, '\n' ∉ p.1.toList)
    (hne : ∀ p ∈ ps, pyStrip (p.1 ++ "\n" ++ p.2) ≠ "") :
    extractSections code =
      (ps.map (fun p => (pyStrip p.1, cleanContent p.2)), []) := by
  unfold extractSections
  rw [hsplit]
  simp [processSections, hpre, processSections_wellformed ps hnl hne]

/-- Claim C1 — witness: the amended statement applied to Scenario A. -/
theorem c1_amended_witness :
    extractSections scenarioA =
      ([("index.html", "html\n<h1>Hi</h1>\n```"),
        ("styles.css", "css\nh1\x7bcolor:red;\x7d\n```"),
        ("script.js", "javascript\nconsole.log(1);")], []) := by
  have h := c1_amended scenarioA ""
    [("index.html", "```html\n<h1>Hi</h1>\n```\n"),
     ("styles.css", "```css\nh1\x7bcolor:red;\x7d\n```\n"),
     ("script.js", "```javascript\nconsole.log(1);\n```")]
    (by decide) (by decide) (by decide) (by decide)
  exact h.trans (by decide)

/-- Claim C2 — counterexample.  A response with zero delimiter occurrences
is not discarded as preamble: when it holds a newline and non-whitespace
text, `create_zip_file`'s loop turns it into an entry, so extraction is
not empty. -/
theorem c2_counterexample :
    splitResponse "hello\nworld" = ["hello\nworld"] ∧
      (extractSections "hello\nworld").1 = [("hello", "world")] ∧
      (extractSections "hello\nworld").1 ≠ [] := by
  decide

/-- Claim C2 — amended.  A response with zero delimiter occurrences raises
no exception, but its text is processed as a single fragment rather than
discarded: whitespace-only text yields nothing, text without a newline is
skipped with a warning, and any other text becomes one extracted entry
(first line trimmed as the path, remainder cleaned as the content). -/
theorem c2_amended (code : String) (hz : splitResponse code = [code]) :
    extractSections code =
      (if pyStrip code = "" then ([], [])
       else
         match splitFirstNewline code with
         | none => ([], [sectionWarning code])
         | some p => ([(pyStrip p.1, cleanContent p.2)], [])) := by
  unfold extractSections
  rw [hz]
  by_cases hs : pyStrip code = ""
  · simp [processSections, hs]
  · cases h : splitFirstNewline code with
    | none => simp [processSections, hs, h]
    | some p => simp [processSections, hs, h]

/-- Claim C2 — witness: a delimiter-free response becomes one entry. -/
theorem c2_amended_witness :
    extractSections "no markers here\njust text" =
      ([("no markers here", "just text")], []) := by
  have h := c2_amended "no markers here\njust text" (by decide)
  exact h.trans (by decide)

/-- Claim C3: for every response and framework profile, the archive is
exactly the extracted `(path, content)` entries with byte-identical
content, then one synthesized placeholder per required-checklist path not
already among the extracted names, then exactly one appended `README.md`. -/
theorem c3_archive (code : String) (fw : Framework) :
    create_zip_file code fw =
      (extractSections code).1 ++
        ((requiredFiles fw).filter
          (fun r => decide (r ∉ (extractSections code).1.map Prod.fst))).map
          (fun r => (r, placeholderContent fw r)) ++
        [("README.md", readmeContent fw)] :=
  create_zip_file_eq code fw

/-- Claim C4 — counterexample.  The fragment `"  "` of this response
contains no newline, yet it is skipped silently (the loop's emptiness
guard fires before the two-way split), so no warning is emitted. -/
theorem c4_counterexample :
    splitResponse "### FILE:   " = ["", "  "] ∧
      ('\n' ∉ "  ".toList) ∧
      extractSections "### FILE:   " = ([], []) := by
  decide

/-- Claim C4 — amended.  A fragment with no newline that is not
whitespace-only is skipped with a warning carrying its first 30
characters, while every other fragment is processed normally and the
operation never aborts; whitespace-only fragments are skipped silently. -/
theorem c4_amended (pre post : List String) (s : String)
    (h1 : pyStrip s ≠ "") (h2 : '\n' ∉ s.toList) :
    processSections (pre ++ s :: post) =
      ((processSections pre).1 ++ (processSections post).1,
       (processSections pre).2 ++
         sectionWarning s :: (processSections post).2) := by
  have hsingle : processSections [s] = ([], [sectionWarning s]) := by
    simp [processSections, h1, splitFirstNewline_eq_none s h2]
  have hsplit : pre ++ s :: post = pre ++ ([s] ++ post) := by simp
  rw [hsplit, processSections_append, processSections_append, hsingle]
  simp

/-- Claim C4 — witness: a newline-free fragment between two well-formed
ones is dropped with its warning while both neighbours extract. -/
theorem c4_amended_witness :
    processSections (["a.js\nA"] ++ "broken" :: ["b.js\nB"]) =
      ([("a.js", "A"), ("b.js", "B")],
       ["Unexpected format in section: broken..."]) := by
  have h := c4_amended ["a.js\nA"] ["b.js\nB"] "broken" (by decide) (by decide)
  exact h.trans (by decide)

/-- Claim C5 — counterexample.  All three required paths are extracted
from this response, but the `index.html` content cleans to the empty
string, so the truthiness test skips preview assembly anyway: "assembled
iff all three paths extracted" fails. -/
theorem c5_counterexample :
    (extractSections
        "### FILE: index.html\n\n### FILE: styles.css\nx\n### FILE: script.js\ny").1.map
        Prod.fst = ["index.html", "styles.css", "script.js"] ∧
      previewResult
        "### FILE: index.html\n\n### FILE: styles.css\nx\n### FILE: script.js\ny" =
        none := by
  decide

/-- Claim C5 — amended.  The live-preview document is assembled iff the
contents the extraction finally associates to `index.html`, `styles.css`
and `script.js` are all non-empty (an extracted-but-empty file blocks
assembly just like an absent one); when assembled it is the wrapper that
inlines the styles in a style block and the script in a script block
around the HTML body, each slot holding the last extracted content. -/
theorem c5_amended (code : String) :
    previewResult code =
      (if lastContent code "index.html" ≠ "" ∧ lastContent code "styles.css" ≠ "" ∧
          lastContent code "script.js" ≠ "" then
        some (completeHtml (lastContent code "styles.css")
          (lastContent code "index.html") (lastContent code "script.js"))
      else none) := by
  unfold previewResult
  rw [extractPreview_html, extractPreview_css, extractPreview_js]

/-- Claim C6: for every response containing two sections with the same
path — any header `h` that is newline-free and holds a non-whitespace
character, duplicated with arbitrary fragments before and between the two
occurrences — the extraction result associates to that path the later
section's cleaned body (last write wins), provided no still-later section
redefines it; when the path is the preview's `index.html`, the preview
slot likewise holds the later content.  The extractor is a pure function
of the response, so repeated runs resolve to the same winner. -/
theorem c6_last_write_wins (pre mid post : List String) (h b1 b2 : String)
    (hh : '\n' ∉ h.toList) (c : Char) (hc : c ∈ h.toList)
    (hcs : pyIsSpace c = false)
    (hpost : lookupLast (processSections post).1 (pyStrip h) = none) :
    lookupLast
        (processSections
          (pre ++ (h ++ "\n" ++ b1) :: (mid ++ (h ++ "\n" ++ b2) :: post))).1
        (pyStrip h) = some (cleanContent b2) ∧
      (pyStrip h = "index.html" →
        (extractPreviewFrom
          (pre ++ (h ++ "\n" ++ b1) ::
            (mid ++ (h ++ "\n" ++ b2) :: post))).html = cleanContent b2) := by
  have hne1 : pyStrip (h ++ "\n" ++ b1) ≠ "" :=
    pyStrip_headerFrag_ne h b1 c hc hcs
  have hne2 : pyStrip (h ++ "\n" ++ b2) ≠ "" :=
    pyStrip_headerFrag_ne h b2 c hc hcs
  have hsp1 := splitFirstNewline_header h b1 hh
  have hsp2 := splitFirstNewline_header h b2 hh
  have hmid : processSections
      ((h ++ "\n" ++ b1) :: (mid ++ (h ++ "\n" ++ b2) :: post)) =
      ((pyStrip h, cleanContent b1) ::
        ((processSections mid).1 ++
          (pyStrip h, cleanContent b2) :: (processSections post).1),
       (processSections mid).2 ++ (processSections post).2) := by
    rw [processSections_cons_entry h b1 _ hne1 hsp1,
        processSections_append,
        processSections_cons_entry h b2 _ hne2 hsp2]
  have htail : lookupLast
      ((pyStrip h, cleanContent b2) :: (processSections post).1) (pyStrip h) =
      some (cleanContent b2) := by
    simp [lookupLast, hpost]
  have hmid2 : lookupLast
      ((processSections mid).1 ++
        (pyStrip h, cleanContent b2) :: (processSections post).1) (pyStrip h) =
      some (cleanContent b2) := by
    rw [lookupLast_append, htail]
  have hinner : lookupLast
      ((pyStrip h, cleanContent b1) ::
        ((processSections mid).1 ++
          (pyStrip h, cleanContent b2) :: (processSections post).1))
      (pyStrip h) = some (cleanContent b2) := by
    simp [lookupLast, hmid2]
  have hlook : lookupLast
      (processSections
        (pre ++ (h ++ "\n" ++ b1) :: (mid ++ (h ++ "\n" ++ b2) :: post))).1
      (pyStrip h) = some (cleanContent b2) := by
    rw [processSections_append, hmid, lookupLast_append, hinner]
  refine ⟨hlook, fun hk => ?_⟩
  unfold extractPreviewFrom
  rw [foldl_preview_html, ← hk, hlook]
  rfl

/-- Claim C6 — witness: two duplicate `src/App.js` sections resolve to the
later content in the extraction result, and two duplicate `index.html`
sections resolve to the later content in the preview slot. -/
theorem c6_witness :
    lookupLast
        (processSections
          ["src/App.js" ++ "\n" ++ "a", "src/App.js" ++ "\n" ++ "b"]).1
        (pyStrip "src/App.js") = some "b" ∧
      (extractPreviewFrom
        ["index.html" ++ "\n" ++ "a", "index.html" ++ "\n" ++ "b"]).html = "b" :=
  ⟨(c6_last_write_wins [] [] [] "src/App.js" "a" "b" (by decide) 's'
      (by decide) (by decide) (by decide)).1,
   (c6_last_write_wins [] [] [] "index.html" "a" "b" (by decide) 'i'
      (by decide) (by decide) (by decide)).2 (by decide)⟩

/-- Claim C7: when the completion text strips to empty, the generate
operation produces exactly one user-visible error message and leaves both
session slots untouched (there is no retry: the handler returns). -/
theorem c7_abort (st : SessionState) (resp : String) (h : pyStrip resp = "") :
    generateOutcome st resp = (st, [emptyResponseError]) := by
  simp [generateOutcome, h]

/-- Claim C7 — witness: a whitespace-only completion leaves prior slots
as they were. -/
theorem c7_witness :
    generateOutcome ⟨"old gen", "old fine"⟩ "   " =
      (⟨"old gen", "old fine"⟩, [emptyResponseError]) :=
  c7_abort ⟨"old gen", "old fine"⟩ "   " (by decide)

/-- Claim C8: extraction and archive creation are pure functions of the
response string and the framework profile, so running either twice on the
same input yields bit-identical results (the model carries no compression
metadata). -/
theorem c8_deterministic (r : String) (fw : Framework) :
    extractSections r = extractSections r ∧
      create_zip_file r fw = create_zip_file r fw :=
  ⟨rfl, rfl⟩

/-- Claim C9 — counterexample.  Under the HTML/CSS/JavaScript profile the
placeholder for the script-like file `script.js` uses the stylesheet
comment form, not `//`: the comment syntax is not chosen per file. -/
theorem c9_counterexample :
    ("script.js", "/* script.js content missing */") ∈
        create_zip_file "" Framework.htmlCssJs ∧
      ("script.js", "// script.js content missing") ∉
        create_zip_file "" Framework.htmlCssJs := by
  decide

/-- Claim C9 — amended.  Every missing required file gets a placeholder
whose comment syntax is chosen per framework branch, regardless of the
individual file's language: `/* ... */` in the HTML/CSS/JavaScript branch
and `// ...` in the React and Angular branches. -/
theorem c9_amended (code : String) (fw : Framework) (req : String)
    (h1 : req ∈ requiredFiles fw)
    (h2 : req ∉ (extractSections code).1.map Prod.fst) :
    (req, placeholderContent fw req) ∈ create_zip_file code fw ∧
      (fw = Framework.htmlCssJs →
        placeholderContent fw req = "/* " ++ req ++ " content missing */") ∧
      (fw ≠ Framework.htmlCssJs →
        placeholderContent fw req = "// " ++ req ++ " content missing") := by
  refine ⟨?_, ?_, ?_⟩
  · rw [create_zip_file_eq]
    apply List.mem_append.mpr
    left
    apply List.mem_append.mpr
    right
    apply List.mem_map.mpr
    refine ⟨req, ?_, rfl⟩
    rw [List.mem_filter]
    exact ⟨h1, decide_eq_true h2⟩
  · intro hf
    subst hf
    rfl
  · intro hf
    cases fw with
    | htmlCssJs => exact absurd rfl hf
    | react => rfl
    | angular => rfl

/-- Claim C9 — witness: the `script.js` placeholder of the
HTML/CSS/JavaScript profile is present in the archive of an empty
response. -/
theorem c9_witness :
    ("script.js", placeholderContent Framework.htmlCssJs "script.js") ∈
      create_zip_file "" Framework.htmlCssJs :=
  (c9_amended "" Framework.htmlCssJs "script.js" (by decide) (by decide)).1

/-- Claim C10: after any sequence of user actions from the initial state,
the fine-tuned slot equals the generated slot (both start empty and are
only assigned together), so the download step — which tests the
fine-tuned slot but archives the generated slot — always archives exactly
the text whose presence it checked. -/
theorem c10_slots (evs : List Event) (fw : Framework) :
    (evs.foldl applyEvent initialSession).fine_tuned_code =
        (evs.foldl applyEvent initialSession).generated_code ∧
      ((evs.foldl applyEvent initialSession).fine_tuned_code ≠ "" →
        downloadAction (evs.foldl applyEvent initialSession) fw =
          some (create_zip_file
            (evs.foldl applyEvent initialSession).fine_tuned_code fw)) := by
  have h := session_slots_eq evs initialSession rfl
  refine ⟨h, fun hne => ?_⟩
  simp only [downloadAction]
  rw [if_neg hne, h]

/-- Claim C10 — witness: after one successful generation the download
archives the checked fine-tuned text. -/
theorem c10_witness :
    downloadAction ([Event.generate "code text"].foldl applyEvent initialSession)
        Framework.react =
      some (create_zip_file
        ([Event.generate "code text"].foldl applyEvent initialSession).fine_tuned_code
        Framework.react) :=
  (c10_slots [Event.generate "code text"] Framework.react).2 (by decide)
